import Mathlib

/-!
Verification of the mtrTografana exporter pipeline: the textual report
decoder, the path-health analyzer, the label sanitizer, the metrics
renderer, the exposition validator and the atomic writer, as implemented
in mtr_exporter.py (main variant) together with the mtr_metrics.py
renderer variant.

Numbers: Python floats are modelled as exact rationals.  All arithmetic
in the model goes through executable wrappers (qadd, qsub, qmul, qdiv)
built on mkRat so that concrete runs of the model reduce inside the
kernel; bridge lemmas identify the wrappers with the field operations
of ℚ for symbolic reasoning.
-/

set_option maxRecDepth 20000

/-- Executable addition on ℚ. -/
def qadd (a b : ℚ) : ℚ := mkRat (a.num * b.den + b.num * a.den) (a.den * b.den)

/-- Executable subtraction on ℚ. -/
def qsub (a b : ℚ) : ℚ := mkRat (a.num * b.den - b.num * a.den) (a.den * b.den)

/-- Executable multiplication on ℚ. -/
def qmul (a b : ℚ) : ℚ := mkRat (a.num * b.num) (a.den * b.den)

/-- Executable division on ℚ; agrees with division whenever the divisor
is positive (the model only ever divides by positive quantities). -/
def qdiv (a b : ℚ) : ℚ := mkRat (a.num * b.den) (a.den * b.num.natAbs)

/-- Round a rational to the nearest integer, ties going to the even
integer (the rounding used by Python's round builtin). -/
def roundHalfEven (q : ℚ) : ℤ :=
  let f := q.floor
  let r := qsub q (f : ℚ)
  if r < mkRat 1 2 then f
  else if mkRat 1 2 < r then f + 1
  else if f % 2 = 0 then f else f + 1

/-- Python round(x, 1): round to one decimal place, ties to even. -/
def pyRound1 (q : ℚ) : ℚ := qdiv ((roundHalfEven (qmul q 10) : ℤ) : ℚ) 10

/-! ### String and character utilities mirroring Python semantics -/

/-- ASCII whitespace as recognized by Python str.strip and str.split. -/
def isWs (c : Char) : Bool :=
  c = ' ' || c = '\t' || c = '\n' || c = '\x0d' || c = '\x0b' || c = '\x0c'

/-- Python str.strip(): drop whitespace from both ends. -/
def pyStripL (l : List Char) : List Char :=
  ((l.dropWhile isWs).reverse.dropWhile isWs).reverse

def pyStripS (s : String) : String := ⟨pyStripL s.data⟩

/-- Python str.split(sep) for a single-character separator: keeps empty
pieces, so the result is always non-empty. -/
def splitOnChar (sep : Char) : List Char → List (List Char)
  | [] => [[]]
  | c :: rest =>
    let r := splitOnChar sep rest
    if c = sep then [] :: r
    else
      match r with
      | [] => [[c]]
      | g :: gs => (c :: g) :: gs

/-- Worker for Python str.split() with no separator: split on runs of
whitespace, discarding empty tokens. -/
def splitWsAux : List Char → List Char → List (List Char)
  | [], acc => if acc.isEmpty then [] else [acc.reverse]
  | c :: rest, acc =>
    if isWs c then
      (if acc.isEmpty then splitWsAux rest [] else acc.reverse :: splitWsAux rest [])
    else splitWsAux rest (c :: acc)

def pySplitWsL (l : List Char) : List (List Char) := splitWsAux l []

def pySplitWsS (s : String) : List String := (pySplitWsL s.data).map (fun l => ⟨l⟩)

/-- Boolean test that the first list starts the second. -/
def startsL : List Char → List Char → Bool
  | [], _ => true
  | _ :: _, [] => false
  | a :: as, b :: bs => a = b && startsL as bs

def startsWithS (p s : String) : Bool := startsL p.data s.data

/-- Boolean test that the first list occurs contiguously inside the second. -/
def hasSubL (p : List Char) : List Char → Bool
  | [] => p.isEmpty
  | c :: rest => startsL p (c :: rest) || hasSubL p rest

def hasSubS (p s : String) : Bool := hasSubL p.data s.data

def containsCharS (c : Char) (s : String) : Bool := s.data.any (fun d => d = c)

/-- The piece of a line after its last space character (the value token
isolated by rsplit with a single split). -/
def afterLastSpaceL (l : List Char) : List Char :=
  (l.reverse.takeWhile (fun c => !(c = ' '))).reverse

def afterLastSpaceS (s : String) : String := ⟨afterLastSpaceL s.data⟩

/-- Python str.rstrip applied with the percent character. -/
def rstripPctL (l : List Char) : List Char :=
  (l.reverse.dropWhile (fun c => c = '%')).reverse

def endsWithPctS (s : String) : Bool :=
  match s.data.reverse with
  | '%' :: _ => true
  | _ => false

/-- Index of the first token ending in a percent sign, mirroring the
enumerate loop of the source that locates the loss column. -/
def findPctIdx : List String → Option Nat
  | [] => none
  | t :: rest => if endsWithPctS t then some 0 else (findPctIdx rest).map (fun i => i + 1)

/-! ### Decimal rendering of integers (Python str of an int) -/

def digitCh (d : Nat) : Char := Char.ofNat (48 + d % 10)

def natDigitsAux : Nat → Nat → List Char
  | 0, _ => []
  | fuel + 1, n => if n < 10 then [digitCh n] else natDigitsAux fuel (n / 10) ++ [digitCh (n % 10)]

def natDigits (n : Nat) : List Char := natDigitsAux (n + 1) n

def natStr (n : Nat) : String := ⟨natDigits n⟩

def intChars (i : Int) : List Char :=
  if i < 0 then '-' :: natDigits i.natAbs else natDigits i.natAbs

def intStr (i : Int) : String := ⟨intChars i⟩

/-! ### Python int() and float() over token text -/

def natFromDigits (l : List Char) : Nat :=
  l.foldl (fun a c => a * 10 + (c.toNat - 48)) 0

/-- Continuation of a digit group: digits with single underscores allowed
only between digits (Python numeric literal rule). -/
def dpRest : List Char → Bool
  | [] => true
  | '_' :: [] => false
  | '_' :: c :: rest => c.isDigit && dpRest rest
  | c :: rest => c.isDigit && dpRest rest

/-- A non-empty digit group, underscores between digits allowed. -/
def digitpartOk : List Char → Bool
  | [] => false
  | c :: rest => c.isDigit && dpRest rest

/-- Python int(str): optional surrounding whitespace, optional sign, then
a digit group. Returns the parsed integer or nothing. -/
def pyIntValL (l : List Char) : Option Int :=
  let t := pyStripL l
  match t with
  | [] => none
  | c :: rest =>
    let body := if c = '-' || c = '+' then rest else t
    let neg := c = '-'
    if digitpartOk body then
      let v : Int := Int.ofNat (natFromDigits (body.filter (fun d => !(d = '_'))))
      some (if neg then -v else v)
    else none

def pyIntValS (s : String) : Option Int := pyIntValL s.data

def isExpChar (c : Char) : Bool := c = 'e' || c = 'E'

/-- Mantissa grammar of a Python float literal (no sign, no exponent):
a digit group, a digit group followed by a point and an optional digit
group, or a point followed by a digit group. -/
def mantissaOk (m : List Char) : Bool :=
  let ip := m.takeWhile (fun c => !(c = '.'))
  let rest := m.drop ip.length
  match rest with
  | [] => digitpartOk ip
  | _ :: fp => if ip.isEmpty then digitpartOk fp else digitpartOk ip && (fp.isEmpty || digitpartOk fp)

/-- Exponent tail of a Python float literal: optional sign then a digit group. -/
def expPartOk : List Char → Bool
  | [] => false
  | c :: rest => if c = '+' || c = '-' then digitpartOk rest else digitpartOk (c :: rest)

/-- Numeric part of a Python float literal (no sign, inf and nan handled
separately): mantissa with an optional exponent marker and exponent. -/
def floatNumOk (l : List Char) : Bool :=
  let mant := l.takeWhile (fun c => !(isExpChar c))
  let erest := l.drop mant.length
  match erest with
  | [] => mantissaOk mant
  | _ :: ex => mantissaOk mant && expPartOk ex

/-- Python float(str) recognizer: surrounding whitespace, optional sign,
then either an infinity or nan word (case-insensitive) or a numeric
literal. -/
def pyFloatOkL (l : List Char) : Bool :=
  let t := pyStripL l
  let body :=
    match t with
    | c :: rest => if c = '-' || c = '+' then rest else t
    | [] => []
  let low := body.map Char.toLower
  if t.isEmpty then false
  else if low = ['i', 'n', 'f'] || low = "infinity".data || low = ['n', 'a', 'n'] then true
  else floatNumOk body

def pyFloatOkS (s : String) : Bool := pyFloatOkL s.data

def pow10 : Nat → Nat
  | 0 => 1
  | n + 1 => 10 * pow10 n

/-- Python float(str) evaluator for finite numeric literals, as an exact
rational. Infinity and nan are not representable in ℚ and yield nothing;
the model parser never meets them on well-formed report lines. -/
def pyFloatValL (l : List Char) : Option ℚ :=
  let t := pyStripL l
  let body :=
    match t with
    | c :: rest => if c = '-' || c = '+' then rest else t
    | [] => []
  let neg : Bool :=
    match t with
    | c :: _ => c == '-'
    | [] => false
  let low := body.map Char.toLower
  if t.isEmpty then none
  else if low = ['i', 'n', 'f'] || low = "infinity".data || low = ['n', 'a', 'n'] then none
  else if floatNumOk body then
    let clean := body.filter (fun d => !(d = '_'))
    let mant := clean.takeWhile (fun c => !(isExpChar c))
    let erest := clean.drop mant.length
    let expVal : Int :=
      match erest with
      | [] => 0
      | _ :: ex =>
        match ex with
        | '-' :: r2 => -(Int.ofNat (natFromDigits r2))
        | '+' :: r2 => Int.ofNat (natFromDigits r2)
        | _ => Int.ofNat (natFromDigits ex)
    let ip := mant.takeWhile (fun c => !(c = '.'))
    let frest := mant.drop ip.length
    let fp :=
      match frest with
      | [] => []
      | _ :: f => f
    let mantVal : ℚ :=
      qadd (mkRat (Int.ofNat (natFromDigits ip)) 1)
        (qdiv (mkRat (Int.ofNat (natFromDigits fp)) 1) (mkRat (Int.ofNat (pow10 fp.length)) 1))
    let scaled : ℚ :=
      if 0 ≤ expVal then qmul mantVal (mkRat (Int.ofNat (pow10 expVal.toNat)) 1)
      else qdiv mantVal (mkRat (Int.ofNat (pow10 (-expVal).toNat)) 1)
    some (if neg then qmul (mkRat (-1) 1) scaled else scaled)
  else none

def pyFloatValS (s : String) : Option ℚ := pyFloatValL s.data

/-! ### Hop data model and the textual report decoder
(parse_mtr_text_output and parse_mtr_data of mtr_exporter.py) -/

/-- One entry of the hubs list produced by the decoder; field names map
to the dict keys count, host, Loss%, Snt, Last, Avg, Best, Wrst, StDev. -/
structure Hub where
  count : Int
  host : String
  lossPct : ℚ
  snt : Int
  last : ℚ
  avg : ℚ
  best : ℚ
  wrst : ℚ
  stdev : ℚ
deriving DecidableEq, Inhabited, Repr

/-- A report section: the hubs key may be absent in a general structured
payload; the textual decoder always supplies it. -/
structure Report where
  hubs : Option (List Hub)
deriving DecidableEq, Inhabited, Repr

/-- A decoded payload: the report key may be absent in a general
structured payload; the textual decoder always supplies it. -/
structure MtrData where
  report : Option Report
deriving DecidableEq, Inhabited, Repr

/-- The body of the per-line loop of parse_mtr_text_output: strip the
line, skip blanks and headers, recognize a data line, split it into
tokens and extract the hop fields; every skip path yields nothing. -/
def lineHub (rawLine : String) : Option Hub :=
  let line := pyStripS rawLine
  if line.data.isEmpty then none
  else if startsWithS "Start:" line || startsWithS "HOST:" line then none
  else if !(hasSubS "|--" line || (containsCharS '|' line && !(startsWithS "|" line))) then none
  else
    let parts := pySplitWsS line
    if parts.length < 7 then none
    else
      let hopStr := pyStripS (⟨(splitOnChar '.' (parts.headD "").data).headD []⟩ : String)
      match pyIntValS hopStr with
      | none => none
      | some hop_num =>
        let host := if (parts.getD 1 "") = "???" then "hop_" ++ intStr hop_num else parts.getD 1 ""
        match findPctIdx parts with
        | none => none
        | some loss_idx =>
          match pyFloatValL (rstripPctL (parts.getD loss_idx "").data) with
          | none => none
          | some loss_pct =>
            let numeric := parts.drop (loss_idx + 1)
            if numeric.length < 5 then none
            else
              match pyIntValS (numeric.getD 0 ""), pyFloatValS (numeric.getD 1 ""),
                    pyFloatValS (numeric.getD 2 ""), pyFloatValS (numeric.getD 3 ""),
                    pyFloatValS (numeric.getD 4 "") with
              | some sent, some last, some avg, some best, some worst =>
                match (if 5 < numeric.length then pyFloatValS (numeric.getD 5 "") else some 0) with
                | none => none
                | some sd => some ⟨hop_num, host, loss_pct, sent, last, avg, best, worst, sd⟩
              | _, _, _, _, _ => none

/-- The accumulation loop over the lines of the report text: a line that
parses contributes its hub, any other line is skipped. -/
def parseLinesLoop : List String → List Hub
  | [] => []
  | l :: rest =>
    match lineHub l with
    | none => parseLinesLoop rest
    | some h => h :: parseLinesLoop rest

/-- The lines the decoder iterates over: the whole text stripped, then
split at line feeds. -/
def pyLines (text : String) : List String :=
  (splitOnChar '\x0a' (pyStripL text.data)).map (fun l => ⟨l⟩)

/-- parse_mtr_text_output: decode the traditional textual report and
wrap the hubs in the report structure. -/
def parse_mtr_text_output (text : String) : MtrData :=
  { report := some { hubs := some (parseLinesLoop (pyLines text)) } }

/-- One extracted hop as built by parse_mtr_data; field names keep the
dict keys of the source. -/
structure HopData where
  hop : Int
  host : String
  loss_percent : ℚ
  sent : Int
  last_ms : ℚ
  avg_ms : ℚ
  best_ms : ℚ
  worst_ms : ℚ
  stddev_ms : ℚ
deriving DecidableEq, Inhabited, Repr

/-- The per-hub conversion of parse_mtr_data. On hubs coming from the
textual decoder every field already has its final numeric type, so the
float and int coercions of the source are identities and the string
fallback branch for the hop number cannot fire. -/
def hubToHop (hub : Hub) : HopData :=
  ⟨hub.count, hub.host, hub.lossPct, hub.snt, hub.last, hub.avg, hub.best, hub.wrst, hub.stdev⟩

/-- parse_mtr_data: validate the report and hubs keys and extract the
hops; a payload missing either key yields the empty list. -/
def parse_mtr_data (d : MtrData) : List HopData :=
  match d.report with
  | none => []
  | some r =>
    match r.hubs with
    | none => []
    | some hubs => hubs.map hubToHop

/-! ### Executable folds over rational lists (Python sum, max, min) -/

def qlsum (l : List ℚ) : ℚ := l.foldl qadd 0

def qlmax : List ℚ → ℚ
  | [] => 0
  | x :: xs => xs.foldl max x

def qlmin : List ℚ → ℚ
  | [] => 0
  | x :: xs => xs.foldl min x

/-! ### Path health analyzer (calculate_path_health_summary of
mtr_exporter.py, main variant) -/

/-- Hops responding to probes: loss strictly below one hundred percent. -/
def validHops (hops : List HopData) : List HopData :=
  hops.filter (fun h => decide (h.loss_percent < 100))

/-- The hop supplying the end-to-end figures: the last responding hop
when one exists, else the last hop overall. -/
def e2eHop (hops : List HopData) : HopData :=
  if (validHops hops).isEmpty then hops.getLastD default
  else (validHops hops).getLastD default

def avgLossPercent (hops : List HopData) : ℚ :=
  if (validHops hops).isEmpty then 0
  else qdiv (qlsum ((validHops hops).map (fun h => h.loss_percent))) ((validHops hops).length : ℚ)

def avgJitterMs (hops : List HopData) : ℚ :=
  if (validHops hops).isEmpty then (e2eHop hops).stddev_ms
  else qdiv (qlsum ((validHops hops).map (fun h => h.stddev_ms))) ((validHops hops).length : ℚ)

def maxJitterMs (hops : List HopData) : ℚ :=
  if (validHops hops).isEmpty then (e2eHop hops).stddev_ms
  else qlmax ((validHops hops).map (fun h => h.stddev_ms))

def rttVarianceMs (hops : List HopData) : ℚ :=
  if (validHops hops).isEmpty then 0
  else
    let rtts := (validHops hops).map (fun h => h.avg_ms)
    if 1 < rtts.length then qsub (qlmax rtts) (qlmin rtts) else 0

/-- The health score before the final one-decimal rounding: one hundred
minus the loss, jitter, latency and variance penalties, clamped at zero. -/
def rawHealthScore (hops : List HopData) : ℚ :=
  let loss_penalty := qmul (e2eHop hops).loss_percent 2
  let jitter_penalty := min (qmul (e2eHop hops).stddev_ms (mkRat 1 2)) 20
  let rtt_penalty := min (qmul (e2eHop hops).avg_ms (mkRat 1 10)) 20
  let variance_penalty := min (qmul (rttVarianceMs hops) (mkRat 1 20)) 10
  max 0 (qsub (qsub (qsub (qsub 100 loss_penalty) jitter_penalty) rtt_penalty) variance_penalty)

/-- The status label: loss-dominant branches first, then thresholds on
the raw (not yet rounded) health score. -/
def healthStatusStr (hops : List HopData) : String :=
  if 50 < (e2eHop hops).loss_percent then "CRITICAL"
  else if 10 < (e2eHop hops).loss_percent then "POOR"
  else if 90 ≤ rawHealthScore hops then "EXCELLENT"
  else if 75 ≤ rawHealthScore hops then "GOOD"
  else if 60 ≤ rawHealthScore hops then "FAIR"
  else "POOR"

structure PathHealthSummary where
  hop_count : Nat
  valid_hops : Nat
  avg_loss_percent : ℚ
  end_to_end_rtt_ms : ℚ
  end_to_end_jitter_ms : ℚ
  end_to_end_loss_percent : ℚ
  avg_jitter_ms : ℚ
  max_jitter_ms : ℚ
  rtt_variance_ms : ℚ
  health_score : ℚ
  health_status : String
deriving DecidableEq, Inhabited, Repr

/-- calculate_path_health_summary: empty input yields the empty summary;
otherwise the record is assembled from the helper values above, with the
stored health score rounded to one decimal place as in the source. The
inner no-hops branch of the source is unreachable here because the input
was already checked non-empty, and the local total loss variable of the
source is never emitted, so neither appears. -/
def calculate_path_health_summary (hops : List HopData) : Option PathHealthSummary :=
  if hops.isEmpty then none
  else some
    { hop_count := hops.length
      valid_hops := (validHops hops).length
      avg_loss_percent := avgLossPercent hops
      end_to_end_rtt_ms := (e2eHop hops).avg_ms
      end_to_end_jitter_ms := (e2eHop hops).stddev_ms
      end_to_end_loss_percent := (e2eHop hops).loss_percent
      avg_jitter_ms := avgJitterMs hops
      max_jitter_ms := maxJitterMs hops
      rtt_variance_ms := rttVarianceMs hops
      health_score := pyRound1 (rawHealthScore hops)
      health_status := healthStatusStr hops }

/-! ### Label sanitizer (clean_hostname and the value cleaning inside
build_labels) -/

/-- The approved character set: alphanumerics plus the safe characters. -/
def pyKeep (c : Char) : Bool :=
  c.isAlphanum || c = '-' || c = '_' || c = '.' || c = ':' || c = '/'

/-- Replace spaces with underscores (first replace of the source chain). -/
def underscoreSpaces (l : List Char) : List Char :=
  l.map (fun c => if c = ' ' then '_' else c)

/-- Drop double quotes, single quotes, line feeds and tabs (remaining
replaces of the source chain). -/
def dropQuotes (l : List Char) : List Char :=
  l.filter (fun c => !(c = Char.ofNat 34 || c = Char.ofNat 39 || c = '\n' || c = '\t'))

/-- Python str.replace for the three-question-marks pattern: scan left to
right, non-overlapping. -/
def replaceQQQ (r : List Char) : List Char → List Char
  | '?' :: '?' :: '?' :: rest => r ++ replaceQQQ r rest
  | c :: rest => c :: replaceQQQ r rest
  | [] => []

def silentName (n : Int) : List Char := "hop_".data ++ intChars n ++ "_silent".data

def hopFallback (n : Int) : List Char := "hop_".data ++ intChars n

/-- clean_hostname: substitute the silent-hop sentinel, normalize spaces,
drop quotes and control characters, keep only approved characters, and
fall back to a synthesized hop name when nothing remains. -/
def clean_hostname (hostname : List Char) (hop_num : Int) : List Char :=
  let c1 := replaceQQQ (silentName hop_num) hostname
  let c2 := dropQuotes (underscoreSpaces c1)
  let c3 := c2.filter pyKeep
  if c3.isEmpty then hopFallback hop_num else c3

def clean_hostnameS (s : String) (n : Int) : String := ⟨clean_hostname s.data n⟩

/-! ### Metrics renderer (build_labels, format_float and
generate_prometheus_metrics of mtr_exporter.py, main variant) -/

/-- The value cleaning applied to every label value inside build_labels:
same replace chain and character filter as clean_hostname, but no
sentinel substitution and no fallback. -/
def cleanLabelValue (s : String) : String :=
  ⟨(dropQuotes (underscoreSpaces s.data)).filter pyKeep⟩

/-- Python dict insertion: an existing key keeps its position and gets
the new value, a fresh key is appended. -/
def dictIns (l : List (String × String)) (kv : String × String) : List (String × String) :=
  if l.any (fun p => p.1 = kv.1) then
    l.map (fun p => if p.1 = kv.1 then (p.1, kv.2) else p)
  else l ++ [kv]

/-- Python dict.update: fold the updates into the base dict. -/
def dictUpd (base upd : List (String × String)) : List (String × String) :=
  upd.foldl dictIns base

/-- Python str.join over a list of parts. -/
def joinParts (sep : String) : List String → String
  | [] => ""
  | [x] => x
  | x :: y :: rest => x ++ sep ++ joinParts sep (y :: rest)

/-- The per-instance configuration of the exporter object. The timestamp
field records the wall-clock capture of the constructor; the main
renderer never reads it. -/
structure ExporterState where
  target : String
  port : Int
  count : Int
  interval : Int
  probe_name : String
  custom_labels : List (String × String)
  protocol : String
  timestamp : Int

/-- build_labels: custom labels first, then target and probe, then the
extra labels, every value cleaned, rendered as comma-joined pairs. -/
def build_labels (st : ExporterState) (extra : List (String × String)) : String :=
  let labels :=
    dictUpd (dictIns (dictIns (dictUpd [] st.custom_labels) ("target", st.target))
      ("probe", st.probe_name)) extra
  let cleaned := labels.map (fun kv => (kv.1, cleanLabelValue kv.2))
  joinParts "," (cleaned.map (fun kv => kv.1 ++ "=\x22" ++ kv.2 ++ "\x22"))

def padLeftZeros (p : Nat) (ds : List Char) : List Char :=
  List.replicate (p - ds.length) '0' ++ ds

/-- format_float: fixed-point rendering with the given precision. The
scaled value is rounded half-to-even as Python does; sign, integer part,
point, zero-padded fraction. Negative zero display is not reproduced;
the renderer only ever formats non-negative measurements. -/
def format_float (v : ℚ) (prec : Nat) : String :=
  let n := roundHalfEven (qmul v ((pow10 prec : Nat) : ℚ))
  let sign := if n < 0 then "-" else ""
  let a := n.natAbs
  let ip := a / pow10 prec
  let fr := a % pow10 prec
  if prec = 0 then sign ++ natStr ip
  else sign ++ natStr ip ++ "." ++ (⟨padLeftZeros prec (natDigits fr)⟩ : String)

/-- The hop-specific label set used by the per-hop metric lines. -/
def hopLabels (st : ExporterState) (h : HopData) (resp : String) : String :=
  build_labels st [("hop", intStr h.hop), ("host", clean_hostnameS h.host h.hop), ("responding", resp)]

/-- The list of metric lines assembled by generate_prometheus_metrics,
in emission order. -/
def metricsList (st : ExporterState) (hops : List HopData) : List String :=
  let base_labels := build_labels st []
  let summary := calculate_path_health_summary hops
  let metadata_labels :=
    base_labels ++ ",port=\x22" ++ intStr st.port ++ "\x22,protocol=\x22" ++ st.protocol ++ "\x22"
  let infoLine := ["mtr_info\x7b" ++ metadata_labels ++ "\x7d 1"]
  let summaryLines :=
    match summary with
    | none => []
    | some s =>
      ["mtr_path_health_score\x7b" ++ base_labels ++ "\x7d " ++ format_float s.health_score 1,
       "mtr_path_rtt_variance_ms\x7b" ++ base_labels ++ "\x7d " ++ format_float s.rtt_variance_ms 2,
       "mtr_path_avg_jitter_ms\x7b" ++ base_labels ++ "\x7d " ++ format_float s.avg_jitter_ms 2,
       "mtr_path_max_jitter_ms\x7b" ++ base_labels ++ "\x7d " ++ format_float s.max_jitter_ms 2,
       "mtr_path_end_to_end_loss_percent\x7b" ++ base_labels ++ "\x7d " ++
         format_float s.end_to_end_loss_percent 1]
  let responding_hops := hops.filter (fun h => decide (h.loss_percent < 100))
  let silent_hops := hops.filter (fun h => decide (100 ≤ h.loss_percent))
  let perHopLines :=
    if responding_hops.isEmpty then []
    else
      responding_hops.map (fun h =>
        "mtr_loss_percent\x7b" ++ hopLabels st h "true" ++ "\x7d " ++ format_float h.loss_percent 1)
      ++ responding_hops.map (fun h =>
        "mtr_packets_sent\x7b" ++ hopLabels st h "true" ++ "\x7d " ++ intStr h.sent)
      ++ responding_hops.map (fun h =>
        "mtr_last_rtt_ms\x7b" ++ hopLabels st h "true" ++ "\x7d " ++ format_float h.last_ms 2)
      ++ responding_hops.map (fun h =>
        "mtr_avg_rtt_ms\x7b" ++ hopLabels st h "true" ++ "\x7d " ++ format_float h.avg_ms 2)
      ++ responding_hops.map (fun h =>
        "mtr_best_rtt_ms\x7b" ++ hopLabels st h "true" ++ "\x7d " ++ format_float h.best_ms 2)
      ++ responding_hops.map (fun h =>
        "mtr_worst_rtt_ms\x7b" ++ hopLabels st h "true" ++ "\x7d " ++ format_float h.worst_ms 2)
      ++ responding_hops.map (fun h =>
        "mtr_jitter_ms\x7b" ++ hopLabels st h "true" ++ "\x7d " ++ format_float h.stddev_ms 2)
  let countLines :=
    ["mtr_silent_hops_count\x7b" ++ base_labels ++ "\x7d " ++ natStr silent_hops.length,
     "mtr_hop_count\x7b" ++ base_labels ++ "\x7d " ++ natStr hops.length,
     "mtr_responding_hop_count\x7b" ++ base_labels ++ "\x7d " ++ natStr responding_hops.length]
  let e2eLines :=
    if hops.isEmpty then []
    else
      let eLoss := match summary with
        | some s => s.end_to_end_loss_percent
        | none => (hops.getLastD default).loss_percent
      let eRtt := match summary with
        | some s => s.end_to_end_rtt_ms
        | none => (hops.getLastD default).avg_ms
      let eJit := match summary with
        | some s => s.end_to_end_jitter_ms
        | none => (hops.getLastD default).stddev_ms
      ["mtr_end_to_end_loss_percent\x7b" ++ base_labels ++ "\x7d " ++ format_float eLoss 1,
       "mtr_end_to_end_avg_rtt_ms\x7b" ++ base_labels ++ "\x7d " ++ format_float eRtt 2,
       "mtr_end_to_end_jitter_ms\x7b" ++ base_labels ++ "\x7d " ++ format_float eJit 2]
  let infoLines :=
    if hops.isEmpty then []
    else
      hops.map (fun h =>
        "mtr_hop_info\x7b" ++
          hopLabels st h (if h.loss_percent < 100 then "true" else "false") ++ "\x7d 1")
  infoLine ++ summaryLines ++ perHopLines ++ countLines ++ e2eLines ++ infoLines

/-- generate_prometheus_metrics: the metric lines joined by line feeds. -/
def generate_prometheus_metrics (st : ExporterState) (hops : List HopData) : String :=
  joinParts "\x0a" (metricsList st hops)

/-- The metric name of a rendered line: everything before the opening
brace. -/
def metricName (line : String) : String := ⟨line.data.takeWhile (fun c => !(c = '\x7b'))⟩

/-! ### The mtr_metrics.py renderer variant -/

/-- The per-instance configuration of the mtr_metrics.py exporter; its
constructor captures the wall clock into the timestamp field. -/
structure MtrMetricsState where
  target : String
  port : Int
  count : Int
  interval : Int
  timestamp : Int

/-- Label string of the per-hop lines of the mtr_metrics.py renderer:
raw interpolation, no cleaning. -/
def MtrMetrics.hopLabels (st : MtrMetricsState) (h : HopData) : String :=
  "hop=\x22" ++ intStr h.hop ++ "\x22,host=\x22" ++ h.host ++ "\x22,target=\x22" ++ st.target ++ "\x22"

/-- generate_prometheus_metrics of mtr_metrics.py: help and type comment
lines, per-hop series for every hop, a hop count, end-to-end figures
from the last hop, and finally the constructor-captured timestamp. The
rendering of a raw float value is supplied as the reprFloat argument
(Python str of a float); it plays no role in the claims settled here. -/
def MtrMetrics.generate_prometheus_metrics (reprFloat : ℚ → String)
    (st : MtrMetricsState) (hops : List HopData) : String :=
  let metrics : List String :=
    ["# HELP mtr_info MTR trace information",
     "# TYPE mtr_info gauge",
     "mtr_info\x7btarget=\x22" ++ st.target ++ "\x22,port=\x22" ++ intStr st.port ++ "\x22\x7d 1",
     ""]
    ++ ["# HELP mtr_loss_percent Packet loss percentage per hop",
        "# TYPE mtr_loss_percent gauge"]
    ++ hops.map (fun h =>
         "mtr_loss_percent\x7b" ++ MtrMetrics.hopLabels st h ++ "\x7d " ++ reprFloat h.loss_percent)
    ++ [""]
    ++ ["# HELP mtr_packets_sent Total packets sent per hop",
        "# TYPE mtr_packets_sent counter"]
    ++ hops.map (fun h =>
         "mtr_packets_sent\x7b" ++ MtrMetrics.hopLabels st h ++ "\x7d " ++ intStr h.sent)
    ++ [""]
    ++ ["# HELP mtr_last_rtt_ms Last round trip time in milliseconds",
        "# TYPE mtr_last_rtt_ms gauge"]
    ++ hops.map (fun h =>
         "mtr_last_rtt_ms\x7b" ++ MtrMetrics.hopLabels st h ++ "\x7d " ++ reprFloat h.last_ms)
    ++ [""]
    ++ ["# HELP mtr_avg_rtt_ms Average round trip time in milliseconds",
        "# TYPE mtr_avg_rtt_ms gauge"]
    ++ hops.map (fun h =>
         "mtr_avg_rtt_ms\x7b" ++ MtrMetrics.hopLabels st h ++ "\x7d " ++ reprFloat h.avg_ms)
    ++ [""]
    ++ ["# HELP mtr_best_rtt_ms Best round trip time in milliseconds",
        "# TYPE mtr_best_rtt_ms gauge"]
    ++ hops.map (fun h =>
         "mtr_best_rtt_ms\x7b" ++ MtrMetrics.hopLabels st h ++ "\x7d " ++ reprFloat h.best_ms)
    ++ [""]
    ++ ["# HELP mtr_worst_rtt_ms Worst round trip time in milliseconds",
        "# TYPE mtr_worst_rtt_ms gauge"]
    ++ hops.map (fun h =>
         "mtr_worst_rtt_ms\x7b" ++ MtrMetrics.hopLabels st h ++ "\x7d " ++ reprFloat h.worst_ms)
    ++ [""]
    ++ ["# HELP mtr_jitter_ms Jitter (standard deviation) in milliseconds",
        "# TYPE mtr_jitter_ms gauge"]
    ++ hops.map (fun h =>
         "mtr_jitter_ms\x7b" ++ MtrMetrics.hopLabels st h ++ "\x7d " ++ reprFloat h.stddev_ms)
    ++ [""]
    ++ ["# HELP mtr_hop_count Total number of hops to target",
        "# TYPE mtr_hop_count gauge"]
    ++ (if hops.isEmpty then []
        else ["mtr_hop_count\x7btarget=\x22" ++ st.target ++ "\x22\x7d " ++ natStr hops.length])
    ++ [""]
    ++ (if hops.isEmpty then []
        else
          let lastHop := hops.getLastD default
          ["# HELP mtr_end_to_end_loss_percent End-to-end packet loss percentage",
           "# TYPE mtr_end_to_end_loss_percent gauge",
           "mtr_end_to_end_loss_percent\x7btarget=\x22" ++ st.target ++ "\x22\x7d " ++
             reprFloat lastHop.loss_percent,
           "",
           "# HELP mtr_end_to_end_avg_rtt_ms End-to-end average round trip time",
           "# TYPE mtr_end_to_end_avg_rtt_ms gauge",
           "mtr_end_to_end_avg_rtt_ms\x7btarget=\x22" ++ st.target ++ "\x22\x7d " ++
             reprFloat lastHop.avg_ms,
           "",
           "# HELP mtr_end_to_end_jitter_ms End-to-end jitter",
           "# TYPE mtr_end_to_end_jitter_ms gauge",
           "mtr_end_to_end_jitter_ms\x7btarget=\x22" ++ st.target ++ "\x22\x7d " ++
             reprFloat lastHop.stddev_ms,
           ""])
    ++ ["# HELP mtr_last_run_timestamp_ms Timestamp of last MTR run",
        "# TYPE mtr_last_run_timestamp_ms gauge",
        "mtr_last_run_timestamp_ms\x7btarget=\x22" ++ st.target ++ "\x22\x7d " ++ intStr st.timestamp]
  joinParts "\x0a" metrics

/-! ### Exposition validator (validate_prometheus_metrics) -/

/-- The per-line check of the validator: the stripped line must be
non-blank, contain a space, and end in a token that parses as a float.
The length check after the single right split of the source can never
fail once a space is present, so it has no separate branch here. -/
def lineValid (l : String) : Bool :=
  let line := pyStripS l
  !line.data.isEmpty && containsCharS ' ' line && pyFloatOkS (afterLastSpaceS line)

/-- validate_prometheus_metrics: strip the whole text, split it at line
feeds, and require every line to pass the per-line check. -/
def validate_prometheus_metrics (content : String) : Bool :=
  (pyLines content).all lineValid

/-! ### Atomic writer (atomic_write_metrics) -/

/-- The relevant slice of the file system: the destination file and the
temporary file, each either absent or holding some byte content. -/
structure FileState where
  dest : Option String
  tmp : Option String
deriving DecidableEq, Repr

/-- The step of the write at which a simulated failure strikes, or no
failure at all. -/
inductive FailPoint where
  | atWrite
  | atFsync
  | atRename
  | atChmod
  | success
deriving DecidableEq, Repr

/-- Python content.endswith with the line feed. -/
def endsWithNl (s : String) : Bool :=
  match s.data.reverse with
  | c :: _ => c = '\x0a'
  | [] => false

/-- The bytes that reach the temporary file when the write completes:
the content plus a line feed when one is missing. -/
def fullContent (content : String) : String :=
  content ++ (if endsWithNl content then "" else "\x0a")

/-- The protected body of atomic_write_metrics: write and flush the
temporary file, sync it, rename it over the destination, change the
permission bits. An error value carries the file state at the moment
the exception is raised; a failing write may leave any partial bytes in
the temporary file. -/
def writeBody (fail : FailPoint) (partialBytes : String) (full : String)
    (fs : FileState) : Except FileState FileState :=
  if fail = FailPoint.atWrite then Except.error { fs with tmp := some partialBytes }
  else
    let fs1 := { fs with tmp := some full }
    if fail = FailPoint.atFsync then Except.error fs1
    else if fail = FailPoint.atRename then Except.error fs1
    else
      let fs2 : FileState := { dest := some full, tmp := none }
      if fail = FailPoint.atChmod then Except.error fs2
      else Except.ok fs2

/-- atomic_write_metrics: create the temporary file, run the protected
body, and on any exception unlink the temporary path (ignoring a missing
file) before re-raising; the flag reports success. -/
def atomic_write_metrics (fail : FailPoint) (partialBytes content : String)
    (fs0 : FileState) : FileState × Bool :=
  let full := fullContent content
  let fs1 := { fs0 with tmp := some "" }
  match writeBody fail partialBytes full fs1 with
  | Except.ok fs2 => (fs2, true)
  | Except.error fsE => ({ fsE with tmp := none }, false)

/-! ### Claim-side definitions, written after the wording of the
specification for comparison with the source-derived definitions -/

/-- Modelled from the claim wording: the hop said to supply the
end-to-end figures, located from the tail of the hop list. -/
def lastRespondingThenLast (hops : List HopData) : HopData :=
  match hops.reverse.find? (fun h => decide (h.loss_percent < 100)) with
  | some h => h
  | none => hops.getLastD default

/-- Modelled from the claim wording: the health score formula over the
summary's own stored fields, with no rounding. -/
def claimHealthScoreOf (s : PathHealthSummary) : ℚ :=
  max 0 (qsub (qsub (qsub (qsub 100 (qmul 2 s.end_to_end_loss_percent))
    (min (qmul (mkRat 1 2) s.end_to_end_jitter_ms) 20))
    (min (qmul (mkRat 1 10) s.end_to_end_rtt_ms) 20))
    (min (qmul (mkRat 1 20) s.rtt_variance_ms) 10))

/-- Boolean check of the first claim at one input: the stored health
score equals the unrounded formula value. -/
def c1ClaimHolds (hops : List HopData) : Bool :=
  match calculate_path_health_summary hops with
  | none => true
  | some s => decide (s.health_score = claimHealthScoreOf s)

/-- Modelled from the claim wording: the status derivation with the
score thresholds applied to the stored (rounded) health score field. -/
def claimStatusOf (s : PathHealthSummary) : String :=
  if 50 < s.end_to_end_loss_percent then "CRITICAL"
  else if 10 < s.end_to_end_loss_percent then "POOR"
  else if 90 ≤ s.health_score then "EXCELLENT"
  else if 75 ≤ s.health_score then "GOOD"
  else if 60 ≤ s.health_score then "FAIR"
  else "POOR"

/-- Boolean check of the second claim at one input: the stored status
equals the loss-dominant derivation over the stored score. -/
def c2ClaimHolds (hops : List HopData) : Bool :=
  match calculate_path_health_summary hops with
  | none => true
  | some s => s.health_status == claimStatusOf s

/-- Boolean check of the sixth claim at one input: a failed write leaves
the destination exactly as it was. -/
def c6ClaimHolds (fail : FailPoint) (partialBytes content : String) (dest0 : Option String) : Bool :=
  let r := atomic_write_metrics fail partialBytes content { dest := dest0, tmp := none }
  r.2 || decide (r.1.dest = dest0)

/-- Modelled from the claim wording of the eighth claim: the acceptance
predicate applied to the raw lines of the text, with no stripping. -/
def c8ClaimPredicate (content : String) : Bool :=
  ((splitOnChar '\x0a' content.data).map (fun l => (⟨l⟩ : String))).all fun l =>
    !l.data.isEmpty && containsCharS ' ' l && pyFloatOkS (afterLastSpaceS l)

/-! ### Named concrete inputs used by the claim theorems -/

/-- The tokens of a stripped report line. -/
def lineTokens (rawLine : String) : List String := pySplitWsS (pyStripS rawLine)

/-- The text whose leading integer part becomes the hop ordinal: the
first token up to its first point, stripped. -/
def hopTokenOf (rawLine : String) : String :=
  pyStripS (⟨(splitOnChar '.' ((lineTokens rawLine).headD "").data).headD []⟩ : String)

/-- The sample gateway report line of the round-trip scenario. -/
def c4Line : String := "  1.|-- _gateway   0.0%    10  1.6  1.6  1.6  1.8  0.1"

/-- The hub the gateway line decodes to. -/
def c4Hub : Hub := ⟨1, "_gateway", 0, 10, mkRat 8 5, mkRat 8 5, mkRat 8 5, mkRat 9 5, mkRat 1 10⟩

/-- The gateway hop as extracted hop data. -/
def gwHop : HopData := ⟨1, "_gateway", 0, 10, mkRat 8 5, mkRat 8 5, mkRat 8 5, mkRat 9 5, mkRat 1 10⟩

/-- The summary computed for the gateway hop. -/
def gwSummary : PathHealthSummary :=
  ⟨1, 1, 0, mkRat 8 5, mkRat 1 10, 0, mkRat 1 10, mkRat 1 10, 0, mkRat 499 5, "EXCELLENT"⟩

/-- A single hop with five percent loss and a small latency, whose raw
score just misses the excellent threshold while its rounded score
reaches it. -/
def h5Hop : HopData := ⟨1, "h", 5, 10, mkRat 3 10, mkRat 3 10, mkRat 3 10, mkRat 3 10, 0⟩

/-- A fully silent single hop. -/
def silentHop : HopData := ⟨1, "h", 100, 10, 0, 0, 0, 0, 0⟩

/-- A small concrete exporter configuration for the silent-path render
scenario. -/
def stC3 : ExporterState := ⟨"t", 443, 10, 1, "p", [], "icmp", 0⟩

/-- Two mtr_metrics.py configurations identical except for the captured
wall-clock timestamp. -/
def c9s0 : MtrMetricsState := ⟨"t", 443, 10, 1, 0⟩

def c9s1 : MtrMetricsState := ⟨"t", 443, 10, 1, 1⟩

/-- A fixed float rendering used when instantiating the mtr_metrics.py
renderer. -/
def c9repr (q : ℚ) : String := format_float q 2

/-! ### Theorems -/

theorem den_cast_ne_zero (a : ℚ) : (a.den : ℚ) ≠ 0 := by
  exact_mod_cast a.den_nz

theorem qadd_eq (a b : ℚ) : qadd a b = a + b := by
  unfold qadd
  rw [Rat.mkRat_eq_div]
  push_cast
  conv_rhs => rw [← Rat.num_div_den a, ← Rat.num_div_den b]
  field_simp

theorem qsub_eq (a b : ℚ) : qsub a b = a - b := by
  unfold qsub
  rw [Rat.mkRat_eq_div]
  push_cast
  conv_rhs => rw [← Rat.num_div_den a, ← Rat.num_div_den b]
  field_simp
  ring

theorem qmul_eq (a b : ℚ) : qmul a b = a * b := by
  unfold qmul
  rw [Rat.mkRat_eq_div]
  push_cast
  conv_rhs => rw [← Rat.num_div_den a, ← Rat.num_div_den b]
  field_simp

theorem qdiv_eq (a b : ℚ) (hb : 0 < b) : qdiv a b = a / b := by
  unfold qdiv
  have hbn : 0 < b.num := Rat.num_pos.mpr hb
  have habs : (b.num.natAbs : ℤ) = b.num := Int.natAbs_of_nonneg (le_of_lt hbn)
  have hbn0 : (b.num : ℚ) ≠ 0 := by exact_mod_cast ne_of_gt hbn
  have habs2 : ((b.num.natAbs : ℚ)) = ((b.num : ℚ)) := by
    rw [Int.cast_natAbs]
    exact congrArg (fun z : ℤ => (z : ℚ)) (abs_of_nonneg (le_of_lt hbn))
  rw [Rat.mkRat_eq_div]
  push_cast
  rw [habs2]
  conv_rhs => rw [← Rat.num_div_den a, ← Rat.num_div_den b]
  field_simp

theorem roundHalfEven_eq (q : ℚ) :
    roundHalfEven q =
      (if q - (q.floor : ℚ) < 1/2 then q.floor
       else if (1:ℚ)/2 < q - (q.floor : ℚ) then q.floor + 1
       else if q.floor % 2 = 0 then q.floor else q.floor + 1) := by
  unfold roundHalfEven
  simp only [qsub_eq, Rat.mkRat_eq_div]
  norm_num

theorem rat_floor_eq_int_floor (q : ℚ) : (Rat.floor q : ℤ) = Int.floor q := rfl

/-- The half-even rounding always lands on the floor or the ceiling. -/
theorem roundHalfEven_mem (q : ℚ) :
    roundHalfEven q = Int.floor q ∨ roundHalfEven q = Int.floor q + 1 := by
  rw [roundHalfEven_eq]
  rw [show (Rat.floor q : ℤ) = Int.floor q from rfl]
  split
  · exact Or.inl rfl
  · split
    · exact Or.inr rfl
    · split
      · exact Or.inl rfl
      · exact Or.inr rfl

theorem roundHalfEven_nonneg (q : ℚ) (hq : 0 ≤ q) : 0 ≤ roundHalfEven q := by
  rcases roundHalfEven_mem q with h | h <;> rw [h]
  · exact Int.floor_nonneg.mpr hq
  · have := Int.floor_nonneg.mpr hq
    omega

theorem roundHalfEven_le (q : ℚ) (B : ℤ) (hq : q ≤ (B : ℚ)) : roundHalfEven q ≤ B := by
  have hfl : Int.floor q ≤ B := by
    have := Int.floor_le_floor hq
    simpa using this
  rcases roundHalfEven_mem q with h | h
  · omega
  · by_cases hB : Int.floor q = B
    · exfalso
      have h1 : (B : ℚ) ≤ q := by
        rw [← hB]; exact Int.floor_le q
      have h2 : q = (B : ℚ) := le_antisymm hq h1
      rw [roundHalfEven_eq] at h
      rw [show (Rat.floor q : ℤ) = Int.floor q from rfl] at h
      rw [h2] at h
      simp [Int.floor_intCast] at h
    · omega

theorem pyRound1_eq (q : ℚ) : pyRound1 q = ((roundHalfEven (q * 10) : ℤ) : ℚ) / 10 := by
  unfold pyRound1
  rw [qdiv_eq _ _ (by norm_num), qmul_eq]

theorem pyRound1_nonneg (q : ℚ) (hq : 0 ≤ q) : 0 ≤ pyRound1 q := by
  rw [pyRound1_eq]
  have h10 : (0:ℚ) ≤ q * 10 := by positivity
  have := roundHalfEven_nonneg _ h10
  positivity

theorem pyRound1_le_100 (q : ℚ) (hq : q ≤ 100) : pyRound1 q ≤ 100 := by
  rw [pyRound1_eq]
  have h10 : q * 10 ≤ ((1000 : ℤ) : ℚ) := by push_cast; linarith
  have hr := roundHalfEven_le (q * 10) 1000 h10
  rw [div_le_iff₀ (by norm_num : (0:ℚ) < 10)]
  have hc : ((roundHalfEven (q * 10) : ℤ) : ℚ) ≤ 1000 := by exact_mod_cast hr
  linarith


theorem parseLinesLoop_eq_filterMap (ls : List String) :
    parseLinesLoop ls = ls.filterMap lineHub := by
  induction ls with
  | nil => rfl
  | cons l rest ih =>
    simp only [parseLinesLoop, List.filterMap_cons]
    cases lineHub l <;> simp [ih]

/-- C4: the textual decode of the sample gateway line produces exactly
one hop record with index 1, host _gateway, zero loss, ten probes sent,
and the stated latency and jitter figures. -/
theorem c4_gateway_line_decode :
    parse_mtr_text_output c4Line = { report := some { hubs := some [c4Hub] } } := by
  decide

/-- C10: for every text input the textual decoder returns a payload
carrying the report and hubs keys, so the invalid-structure branch of
the extractor is unreachable on its results, and extraction yields
exactly one record per successfully parsed line, in order, with every
field copied unchanged. -/
theorem c10_textual_decode_structure (text : String) :
    (parse_mtr_text_output text).report.isSome = true
    ∧ parse_mtr_text_output text
        = { report := some { hubs := some (parseLinesLoop (pyLines text)) } }
    ∧ parse_mtr_data (parse_mtr_text_output text)
        = (pyLines text).filterMap (fun l => (lineHub l).map hubToHop)
    ∧ (parse_mtr_data (parse_mtr_text_output text)).length
        = (parseLinesLoop (pyLines text)).length
    ∧ (parse_mtr_data (parse_mtr_text_output text)).map (fun h => h.hop)
        = (parseLinesLoop (pyLines text)).map (fun h => h.count)
    ∧ (parse_mtr_data (parse_mtr_text_output text)).map (fun h => h.host)
        = (parseLinesLoop (pyLines text)).map (fun h => h.host)
    ∧ (parse_mtr_data (parse_mtr_text_output text)).map (fun h => h.loss_percent)
        = (parseLinesLoop (pyLines text)).map (fun h => h.lossPct)
    ∧ (parse_mtr_data (parse_mtr_text_output text)).map (fun h => h.sent)
        = (parseLinesLoop (pyLines text)).map (fun h => h.snt)
    ∧ (parse_mtr_data (parse_mtr_text_output text)).map (fun h => h.last_ms)
        = (parseLinesLoop (pyLines text)).map (fun h => h.last)
    ∧ (parse_mtr_data (parse_mtr_text_output text)).map (fun h => h.avg_ms)
        = (parseLinesLoop (pyLines text)).map (fun h => h.avg)
    ∧ (parse_mtr_data (parse_mtr_text_output text)).map (fun h => h.best_ms)
        = (parseLinesLoop (pyLines text)).map (fun h => h.best)
    ∧ (parse_mtr_data (parse_mtr_text_output text)).map (fun h => h.worst_ms)
        = (parseLinesLoop (pyLines text)).map (fun h => h.wrst)
    ∧ (parse_mtr_data (parse_mtr_text_output text)).map (fun h => h.stddev_ms)
        = (parseLinesLoop (pyLines text)).map (fun h => h.stdev) := by
  refine ⟨rfl, rfl, ?_, ?_, ?_, ?_, ?_, ?_, ?_, ?_, ?_, ?_, ?_⟩
  · simp [parse_mtr_data, parse_mtr_text_output, parseLinesLoop_eq_filterMap,
      List.map_filterMap]
  · simp [parse_mtr_data, parse_mtr_text_output, List.length_map]
  all_goals (simp only [parse_mtr_data, parse_mtr_text_output, List.map_map]; rfl)

/-- C6 amended: on a failure while writing, syncing or renaming, the
temporary file is gone and the destination is byte-identical to its
prior state; on a failure of the post-rename permission change the
temporary path is likewise gone but the destination already holds the
complete new content; in every outcome the destination is either its
prior state or the full new content, never a partial write. -/
theorem c6_atomic_write_amended (fail : FailPoint) (pb content : String) (fs0 : FileState) :
    ((atomic_write_metrics fail pb content fs0).1.tmp = none)
    ∧ ((atomic_write_metrics fail pb content fs0).2 = true →
        (atomic_write_metrics fail pb content fs0).1.dest = some (fullContent content))
    ∧ (fail = FailPoint.atWrite ∨ fail = FailPoint.atFsync ∨ fail = FailPoint.atRename →
        (atomic_write_metrics fail pb content fs0).1.dest = fs0.dest
        ∧ (atomic_write_metrics fail pb content fs0).2 = false)
    ∧ (fail = FailPoint.atChmod →
        (atomic_write_metrics fail pb content fs0).1.dest = some (fullContent content)
        ∧ (atomic_write_metrics fail pb content fs0).2 = false)
    ∧ ((atomic_write_metrics fail pb content fs0).1.dest = fs0.dest
        ∨ (atomic_write_metrics fail pb content fs0).1.dest = some (fullContent content)) := by
  cases fail <;> simp [atomic_write_metrics, writeBody]

theorem c6_witness :
    (atomic_write_metrics FailPoint.atRename "x" "a" { dest := some "old", tmp := none }).1.dest
        = some "old"
    ∧ (atomic_write_metrics FailPoint.atRename "x" "a" { dest := some "old", tmp := none }).2
        = false :=
  (c6_atomic_write_amended FailPoint.atRename "x" "a"
    { dest := some "old", tmp := none }).2.2.1 (Or.inr (Or.inr rfl))

/-- C6 counterexample: a failure at the permission change after the
rename leaves the new content in the destination, so the claim that any
failure leaves the destination byte-identical to its prior state is
false. -/
theorem c6_counterexample :
    c6ClaimHolds FailPoint.atChmod "x" "new" (some "old") = false := by
  decide

/-- C8 amended: the validator strips the whole text, splits at line
feeds, strips each line, and accepts exactly when every stripped line is
non-blank, contains a space, and ends in a token accepted by the float
parser; one bad line rejects the whole batch. -/
theorem c8_validator_amended (content : String) :
    validate_prometheus_metrics content = true ↔
      ∀ l ∈ pyLines content, lineValid l = true := by
  simp [validate_prometheus_metrics, List.all_eq_true]

theorem c8_witness : validate_prometheus_metrics "mtr_up 1" = true :=
  (c8_validator_amended "mtr_up 1").mpr (by decide)

/-- C8 counterexample: a line with a trailing space is accepted by the
validator, though the substring of the raw line after its last space is
empty and parses as no number, contradicting the claimed equivalence. -/
theorem c8_counterexample :
    validate_prometheus_metrics "a 1 \x0ab 2" = true
    ∧ c8ClaimPredicate "a 1 \x0ab 2" = false := by
  constructor <;> decide

/-- C9 amended: the main renderer is byte-stable in the hop records,
target, probe name, port, protocol and custom labels (the captured
timestamp and cycle settings play no part), while the mtr_metrics.py
variant is byte-stable only when the captured wall-clock timestamp also
agrees, because it renders that timestamp into its final line. -/
theorem c9_render_amended :
    (∀ (s1 s2 : ExporterState) (hops : List HopData),
      s1.target = s2.target → s1.port = s2.port → s1.probe_name = s2.probe_name →
      s1.protocol = s2.protocol → s1.custom_labels = s2.custom_labels →
      generate_prometheus_metrics s1 hops = generate_prometheus_metrics s2 hops)
    ∧ (∀ (fr : ℚ → String) (s1 s2 : MtrMetricsState) (hops : List HopData),
      s1.target = s2.target → s1.port = s2.port → s1.timestamp = s2.timestamp →
      MtrMetrics.generate_prometheus_metrics fr s1 hops
        = MtrMetrics.generate_prometheus_metrics fr s2 hops) := by
  constructor
  · intro s1 s2 hops h1 h2 h3 h4 h5
    cases s1
    cases s2
    simp only at h1 h2 h3 h4 h5
    subst h1; subst h2; subst h3; subst h4; subst h5
    rfl
  · intro fr s1 s2 hops h1 h2 h3
    cases s1
    cases s2
    simp only at h1 h2 h3
    subst h1; subst h2; subst h3
    rfl

theorem c9_witness :
    generate_prometheus_metrics stC3 []
      = generate_prometheus_metrics ⟨"t", 443, 99, 7, "p", [], "icmp", 123⟩ [] :=
  c9_render_amended.1 stC3 ⟨"t", 443, 99, 7, "p", [], "icmp", 123⟩ [] rfl rfl rfl rfl rfl

/-- C9 counterexample: two runs of the mtr_metrics.py renderer over
identical hop records, target and port, differing only in the captured
wall-clock timestamp, render different bytes. -/
theorem c9_counterexample :
    decide (MtrMetrics.generate_prometheus_metrics c9repr c9s0 []
      = MtrMetrics.generate_prometheus_metrics c9repr c9s1 []) = false := by
  decide

theorem findPctIdx_some_any (parts : List String) (i : Nat)
    (h : findPctIdx parts = some i) : parts.any endsWithPctS = true := by
  induction parts generalizing i with
  | nil => simp [findPctIdx] at h
  | cons t rest ih =>
    simp only [findPctIdx] at h
    by_cases ht : endsWithPctS t
    · simp [ht]
    · rw [if_neg ht] at h
      cases hr : findPctIdx rest with
      | none => rw [hr] at h; simp at h
      | some j =>
        simp [List.any_cons, ih j hr]

set_option maxHeartbeats 1600000 in
/-- C5: the per-line decoder produces a hop only when the line has at
least seven tokens, the leading part of its first token parses as an
integer, some token ends in a percent sign, and at least five tokens
follow the loss token; with exactly five tail tokens the jitter field
defaults to zero; and a line that fails any of these is dropped alone,
the surrounding lines decoding exactly as without it. -/
theorem c5_line_skip_conditions :
    (∀ (line : String) (hub : Hub), lineHub line = some hub →
      7 ≤ (lineTokens line).length
      ∧ (pyIntValS (hopTokenOf line)).isSome = true
      ∧ (lineTokens line).any endsWithPctS = true
      ∧ ∃ i, findPctIdx (lineTokens line) = some i
          ∧ 5 ≤ (lineTokens line).length - (i + 1)
          ∧ ((lineTokens line).length - (i + 1) = 5 → hub.stdev = 0))
    ∧ (∀ (pre post : List String) (bad : String), lineHub bad = none →
        parseLinesLoop (pre ++ bad :: post) = parseLinesLoop (pre ++ post)) := by
  constructor
  · intro line hub h
    simp only [lineTokens, hopTokenOf]
    simp only [lineHub] at h
    split at h
    · exact absurd h (by simp)
    · split at h
      · exact absurd h (by simp)
      · split at h
        · exact absurd h (by simp)
        · split at h
          · exact absurd h (by simp)
          · rename_i hlen
            split at h
            · exact absurd h (by simp)
            · rename_i hop_num hInt
              split at h
              · exact absurd h (by simp)
              · rename_i loss_idx hPct
                split at h
                · exact absurd h (by simp)
                · rename_i loss_pct hLoss
                  split at h
                  · exact absurd h (by simp)
                  · rename_i hTail
                    rw [List.length_drop] at hTail
                    split at h
                    · rename_i sent last avg best worst hSent hLast hAvg hBest hWorst
                      split at h
                      · exact absurd h (by simp)
                      · rename_i sd hSd
                        rw [List.length_drop] at hSd
                        refine ⟨by omega, ?_, findPctIdx_some_any _ _ hPct,
                          loss_idx, hPct, by omega, ?_⟩
                        · rw [hInt]; rfl
                        · intro hfive
                          have h5no : ¬ (5 < (pySplitWsS (pyStripS line)).length - (loss_idx + 1)) := by
                            omega
                          rw [if_neg h5no] at hSd
                          injection hSd with hsd0
                          injection h with hh
                          rw [← hh]
                          exact hsd0.symm
                    · exact absurd h (by simp)
  · intro pre post bad hbad
    induction pre with
    | nil => simp [parseLinesLoop, hbad]
    | cons a pre ih =>
      simp only [List.cons_append, parseLinesLoop]
      cases lineHub a <;> simp [ih]

theorem c5_witness :
    (7 ≤ (lineTokens c4Line).length
      ∧ (pyIntValS (hopTokenOf c4Line)).isSome = true
      ∧ (lineTokens c4Line).any endsWithPctS = true
      ∧ ∃ i, findPctIdx (lineTokens c4Line) = some i
          ∧ 5 ≤ (lineTokens c4Line).length - (i + 1)
          ∧ ((lineTokens c4Line).length - (i + 1) = 5 → c4Hub.stdev = 0))
    ∧ parseLinesLoop (["mtr_up 1"] ++ "garbage" :: []) = parseLinesLoop (["mtr_up 1"] ++ []) :=
  ⟨c5_line_skip_conditions.1 c4Line c4Hub (by decide),
   c5_line_skip_conditions.2 ["mtr_up 1"] [] "garbage" (by decide)⟩

theorem replaceQQQ_cons_ne (r : List Char) (c : Char) (rest : List Char) (hc : ¬ (c = '?')) :
    replaceQQQ r (c :: rest) = c :: replaceQQQ r rest := by
  rw [replaceQQQ.eq_def]
  split
  · rename_i rest2 heq
    injection heq with h1 _
    exact absurd h1 hc
  · rename_i c2 rest2 heq
    injection heq with h1 h2
    rw [h1, h2]
  · rename_i heq
    exact absurd heq (by simp)

theorem replaceQQQ_id (r l : List Char) (hl : ∀ c ∈ l, ¬ (c = '?')) :
    replaceQQQ r l = l := by
  induction l with
  | nil => rfl
  | cons c rest ih =>
    rw [replaceQQQ_cons_ne r c rest (hl c (List.mem_cons_self c rest))]
    rw [ih (fun d hd => hl d (List.mem_cons_of_mem c hd))]

theorem underscoreSpaces_id (l : List Char) (hl : ∀ c ∈ l, ¬ (c = ' ')) :
    underscoreSpaces l = l := by
  unfold underscoreSpaces
  rw [List.map_congr_left (fun c hc => if_neg (hl c hc))]
  exact List.map_id l

theorem dropQuotes_id (l : List Char)
    (hl : ∀ c ∈ l, (!(c = Char.ofNat 34 || c = Char.ofNat 39 || c = '\n' || c = '\t')) = true) :
    dropQuotes l = l := by
  unfold dropQuotes
  exact List.filter_eq_self.mpr hl

theorem filter_pyKeep_idem (l : List Char) :
    (l.filter pyKeep).filter pyKeep = l.filter pyKeep :=
  List.filter_eq_self.mpr (fun _ hc => (List.mem_filter.mp hc).2)

theorem pyKeep_not_q (c : Char) (h : pyKeep c = true) : ¬ (c = '?') := by
  intro e; subst e; simp [pyKeep] at h

theorem pyKeep_not_space (c : Char) (h : pyKeep c = true) : ¬ (c = ' ') := by
  intro e; subst e; simp [pyKeep] at h

theorem pyKeep_not_quote (c : Char) (h : pyKeep c = true) :
    (!(c = Char.ofNat 34 || c = Char.ofNat 39 || c = '\n' || c = '\t')) = true := by
  by_cases hq : (c = Char.ofNat 34 || c = Char.ofNat 39 || c = '\n' || c = '\t') = true
  · exfalso
    simp only [Bool.or_eq_true, decide_eq_true_eq] at hq
    rcases hq with ((e | e) | e) | e <;> (subst e; simp [pyKeep] at h)
  · simp only [Bool.not_eq_true] at hq
    simp [hq]

theorem digitCh_isDigit (n : Nat) : (digitCh n).isDigit = true := by
  unfold digitCh
  have h : n % 10 < 10 := Nat.mod_lt _ (by norm_num)
  revert h
  generalize n % 10 = k
  intro h
  interval_cases k <;> decide

theorem natDigitsAux_digits (fuel n : Nat) (c : Char) (hc : c ∈ natDigitsAux fuel n) :
    c.isDigit = true := by
  induction fuel generalizing n with
  | zero => simp [natDigitsAux] at hc
  | succ fuel ih =>
    unfold natDigitsAux at hc
    split at hc
    · rcases List.mem_singleton.mp hc with rfl
      exact digitCh_isDigit n
    · rcases List.mem_append.mp hc with h1 | h1
      · exact ih _ h1
      · rcases List.mem_singleton.mp h1 with rfl
        exact digitCh_isDigit _

theorem intChars_safe (i : Int) (c : Char) (hc : c ∈ intChars i) :
    c.isDigit = true ∨ c = '-' := by
  unfold intChars at hc
  split at hc
  · rcases List.mem_cons.mp hc with rfl | h1
    · exact Or.inr rfl
    · exact Or.inl (natDigitsAux_digits _ _ _ h1)
  · exact Or.inl (natDigitsAux_digits _ _ _ hc)

theorem isDigit_pyKeep (c : Char) (h : c.isDigit = true) : pyKeep c = true := by
  simp [pyKeep, Char.isAlphanum, h]

theorem hopFallback_pyKeep (n : Int) (c : Char) (hc : c ∈ hopFallback n) : pyKeep c = true := by
  unfold hopFallback at hc
  rcases List.mem_append.mp hc with h1 | h1
  · fin_cases h1 <;> decide
  · rcases intChars_safe n c h1 with hd | rfl
    · exact isDigit_pyKeep c hd
    · decide

theorem clean_hostname_fixed (y : List Char) (n : Int)
    (h1 : ∀ c ∈ y, pyKeep c = true) (h2 : y.isEmpty = false) :
    clean_hostname y n = y := by
  simp only [clean_hostname]
  rw [replaceQQQ_id _ _ (fun c hc => pyKeep_not_q c (h1 c hc))]
  rw [underscoreSpaces_id _ (fun c hc => pyKeep_not_space c (h1 c hc))]
  rw [dropQuotes_id _ (fun c hc => pyKeep_not_quote c (h1 c hc))]
  rw [List.filter_eq_self.mpr h1]
  rw [if_neg (by simp [h2])]

/-- C7: label sanitization is idempotent, and for every input the
sanitized result is non-empty and consists only of alphanumerics and
the safe characters. -/
theorem c7_sanitize_idempotent (x : List Char) (n : Int) :
    clean_hostname (clean_hostname x n) n = clean_hostname x n
    ∧ (clean_hostname x n).isEmpty = false
    ∧ (clean_hostname x n).all pyKeep = true := by
  have hall : ∀ c ∈ clean_hostname x n, pyKeep c = true := by
    intro c hc
    simp only [clean_hostname] at hc
    by_cases he : ((dropQuotes (underscoreSpaces (replaceQQQ (silentName n) x))).filter pyKeep).isEmpty
    · rw [if_pos he] at hc
      exact hopFallback_pyKeep n c hc
    · rw [if_neg he] at hc
      exact (List.mem_filter.mp hc).2
  have hnonempty : (clean_hostname x n).isEmpty = false := by
    simp only [clean_hostname]
    split
    · have hstep : hopFallback n = 'h' :: ("op_".data ++ intChars n) := rfl
      rw [hstep]
      rfl
    · rename_i he
      simpa using he
  exact ⟨clean_hostname_fixed (clean_hostname x n) n hall hnonempty, hnonempty,
    List.all_eq_true.mpr hall⟩

theorem getLastD_mem {α : Type} (l : List α) (d : α) (h : l ≠ []) : l.getLastD d ∈ l := by
  induction l generalizing d with
  | nil => exact absurd rfl h
  | cons a l ih =>
    rw [List.getLastD_cons]
    cases l with
    | nil => simp
    | cons b t => exact List.mem_cons_of_mem a (ih b (by simp))

theorem validHops_subset (hops : List HopData) : validHops hops ⊆ hops :=
  fun _ hx => List.mem_of_mem_filter hx

theorem e2eHop_mem (hops : List HopData) (h : hops ≠ []) : e2eHop hops ∈ hops := by
  unfold e2eHop
  split
  · exact getLastD_mem hops default h
  · rename_i hne
    have : validHops hops ≠ [] := by
      intro e; rw [e] at hne; exact hne rfl
    exact validHops_subset hops (getLastD_mem _ default this)

theorem filter_getLastD_of_find (p : HopData → Bool) (l : List HopData) (h : HopData)
    (hf : l.reverse.find? p = some h) (d : HopData) : (l.filter p).getLastD d = h := by
  induction l using List.reverseRecOn generalizing h with
  | nil => simp at hf
  | append_singleton l a ih =>
    rw [List.reverse_append] at hf
    simp only [List.reverse_cons, List.reverse_nil, List.nil_append, List.singleton_append] at hf
    rw [List.filter_append]
    by_cases hp : p a
    · rw [List.find?_cons_of_pos _ hp] at hf
      injection hf with hf
      subst hf
      rw [show List.filter p [a] = [a] by simp [List.filter_cons, hp]]
      exact List.getLastD_concat _ _ _
    · rw [List.find?_cons_of_neg _ hp] at hf
      rw [show List.filter p [a] = [] by simp [List.filter_cons, hp], List.append_nil]
      exact ih h hf

theorem find_none_iff_filter_nil (p : HopData → Bool) (l : List HopData) :
    l.reverse.find? p = none ↔ l.filter p = [] := by
  rw [List.find?_eq_none, List.filter_eq_nil_iff]
  constructor
  · intro h a ha
    exact h a (List.mem_reverse.mpr ha)
  · intro h a ha
    exact h a (List.mem_reverse.mp ha)

theorem e2eHop_eq_spec (hops : List HopData) : e2eHop hops = lastRespondingThenLast hops := by
  unfold e2eHop lastRespondingThenLast validHops
  cases hfind : hops.reverse.find? (fun h => decide (h.loss_percent < 100)) with
  | none =>
    rw [if_pos]
    rw [List.isEmpty_iff]
    exact (find_none_iff_filter_nil _ hops).mp hfind
  | some h =>
    rw [if_neg]
    · exact filter_getLastD_of_find _ hops h hfind default
    · intro he
      rw [List.isEmpty_iff] at he
      rw [(find_none_iff_filter_nil _ hops).mpr he] at hfind
      exact Option.noConfusion hfind

theorem le_foldl_max (xs : List ℚ) (a : ℚ) : a ≤ xs.foldl max a := by
  induction xs generalizing a with
  | nil => exact le_refl a
  | cons x xs ih => exact le_trans (le_max_left a x) (ih (max a x))

theorem foldl_min_le (xs : List ℚ) (a : ℚ) : xs.foldl min a ≤ a := by
  induction xs generalizing a with
  | nil => exact le_refl a
  | cons x xs ih => exact le_trans (ih (min a x)) (min_le_left a x)

theorem qlmin_le_qlmax (l : List ℚ) : qlmin l ≤ qlmax l := by
  cases l with
  | nil => exact le_refl 0
  | cons x xs => exact le_trans (foldl_min_le xs x) (le_foldl_max xs x)

theorem rttVarianceMs_nonneg (hops : List HopData) : 0 ≤ rttVarianceMs hops := by
  simp only [rttVarianceMs]
  split
  · exact le_refl 0
  · split
    · rw [qsub_eq]
      have := qlmin_le_qlmax ((validHops hops).map (fun h => h.avg_ms))
      linarith
    · exact le_refl 0

theorem rawHealthScore_nonneg (hops : List HopData) : 0 ≤ rawHealthScore hops :=
  le_max_left 0 _

theorem rawHealthScore_formula (hops : List HopData) :
    rawHealthScore hops =
      max 0 (100 - 2 * (e2eHop hops).loss_percent
        - min ((1/2) * (e2eHop hops).stddev_ms) 20
        - min ((1/10) * (e2eHop hops).avg_ms) 20
        - min ((1/20) * (rttVarianceMs hops)) 10) := by
  unfold rawHealthScore
  simp only [qsub_eq, qmul_eq, Rat.mkRat_eq_div]
  ring_nf

theorem rawHealthScore_le_100 (hops : List HopData) (hne : hops ≠ [])
    (hnn : ∀ hp ∈ hops, 0 ≤ hp.loss_percent ∧ 0 ≤ hp.avg_ms ∧ 0 ≤ hp.stddev_ms) :
    rawHealthScore hops ≤ 100 := by
  rw [rawHealthScore_formula]
  have hmem := e2eHop_mem hops hne
  obtain ⟨hl, ha, hs⟩ := hnn _ hmem
  have hv := rttVarianceMs_nonneg hops
  have h1 : 0 ≤ 2 * (e2eHop hops).loss_percent := by linarith
  have h2 : 0 ≤ min ((1/2) * (e2eHop hops).stddev_ms) 20 :=
    le_min (by linarith) (by norm_num)
  have h3 : 0 ≤ min ((1/10) * (e2eHop hops).avg_ms) 20 :=
    le_min (by linarith) (by norm_num)
  have h4 : 0 ≤ min ((1/20) * (rttVarianceMs hops)) 10 :=
    le_min (by linarith) (by norm_num)
  exact max_le (by norm_num) (by linarith)

/-- C1 amended: the stored healthScore equals the claimed formula value
rounded to one decimal place (ties to even); the value is within zero
and one hundred under the hop-record field invariants; and the
end-to-end fields come from the last responding hop when one exists,
else the last hop overall. -/
theorem c1_health_score_amended (hops : List HopData) (s : PathHealthSummary)
    (h : calculate_path_health_summary hops = some s)
    (hnn : ∀ hp ∈ hops, 0 ≤ hp.loss_percent ∧ 0 ≤ hp.avg_ms ∧ 0 ≤ hp.stddev_ms) :
    s.health_score = pyRound1 (max 0 (100 - 2 * s.end_to_end_loss_percent
        - min ((1/2) * s.end_to_end_jitter_ms) 20
        - min ((1/10) * s.end_to_end_rtt_ms) 20
        - min ((1/20) * s.rtt_variance_ms) 10))
    ∧ 0 ≤ s.health_score ∧ s.health_score ≤ 100
    ∧ s.end_to_end_loss_percent = (lastRespondingThenLast hops).loss_percent
    ∧ s.end_to_end_rtt_ms = (lastRespondingThenLast hops).avg_ms
    ∧ s.end_to_end_jitter_ms = (lastRespondingThenLast hops).stddev_ms := by
  have hne : hops ≠ [] := by
    intro e
    rw [e] at h
    simp [calculate_path_health_summary] at h
  simp only [calculate_path_health_summary] at h
  rw [if_neg (by simpa [List.isEmpty_iff] using hne)] at h
  injection h with h
  subst h
  refine ⟨?_, ?_, ?_, ?_, ?_, ?_⟩
  · exact congrArg pyRound1 (rawHealthScore_formula hops)
  · exact pyRound1_nonneg _ (rawHealthScore_nonneg hops)
  · exact pyRound1_le_100 _ (rawHealthScore_le_100 hops hne hnn)
  · exact congrArg (fun hp => hp.loss_percent) (e2eHop_eq_spec hops)
  · exact congrArg (fun hp => hp.avg_ms) (e2eHop_eq_spec hops)
  · exact congrArg (fun hp => hp.stddev_ms) (e2eHop_eq_spec hops)

/-- C1 counterexample: for the single gateway hop the stored healthScore
is 99.8 while the claimed unrounded formula gives 99.79, so the claimed
exact equality fails. -/
theorem c1_counterexample : c1ClaimHolds [gwHop] = false := by decide

theorem c1_witness :
    gwSummary.health_score = pyRound1 (max 0 (100 - 2 * gwSummary.end_to_end_loss_percent
        - min ((1/2) * gwSummary.end_to_end_jitter_ms) 20
        - min ((1/10) * gwSummary.end_to_end_rtt_ms) 20
        - min ((1/20) * gwSummary.rtt_variance_ms) 10))
    ∧ 0 ≤ gwSummary.health_score ∧ gwSummary.health_score ≤ 100
    ∧ gwSummary.end_to_end_loss_percent = (lastRespondingThenLast [gwHop]).loss_percent
    ∧ gwSummary.end_to_end_rtt_ms = (lastRespondingThenLast [gwHop]).avg_ms
    ∧ gwSummary.end_to_end_jitter_ms = (lastRespondingThenLast [gwHop]).stddev_ms :=
  c1_health_score_amended [gwHop] gwSummary (by decide) (by decide)

/-- C2 amended: the status is loss-dominant exactly as claimed, but the
score thresholds are applied to the unrounded health score, not to the
rounded healthScore field stored in the summary. -/
theorem c2_health_status_amended (hops : List HopData) (s : PathHealthSummary)
    (h : calculate_path_health_summary hops = some s) :
    s.health_status =
      (if 50 < s.end_to_end_loss_percent then "CRITICAL"
       else if 10 < s.end_to_end_loss_percent then "POOR"
       else if 90 ≤ rawHealthScore hops then "EXCELLENT"
       else if 75 ≤ rawHealthScore hops then "GOOD"
       else if 60 ≤ rawHealthScore hops then "FAIR"
       else "POOR") := by
  have hne : hops ≠ [] := by
    intro e
    rw [e] at h
    simp [calculate_path_health_summary] at h
  simp only [calculate_path_health_summary] at h
  rw [if_neg (by simpa [List.isEmpty_iff] using hne)] at h
  injection h with h
  subst h
  rfl

/-- C2 counterexample: a hop with five percent loss and raw score 89.97
stores healthScore 90.0 yet is labelled GOOD, while the claimed
derivation over the stored field would label it EXCELLENT. -/
theorem c2_counterexample : c2ClaimHolds [h5Hop] = false := by decide

theorem c2_witness :
    gwSummary.health_status =
      (if 50 < gwSummary.end_to_end_loss_percent then "CRITICAL"
       else if 10 < gwSummary.end_to_end_loss_percent then "POOR"
       else if 90 ≤ rawHealthScore [gwHop] then "EXCELLENT"
       else if 75 ≤ rawHealthScore [gwHop] then "GOOD"
       else if 60 ≤ rawHealthScore [gwHop] then "FAIR"
       else "POOR") :=
  c2_health_status_amended [gwHop] gwSummary (by decide)

/-- C3: a report whose only hop is fully silent still yields an
end-to-end loss of one hundred and a CRITICAL status, and the rendered
output has an mtr_hop_count line, an mtr_silent_hops_count line with
value one, and an mtr_hop_info line with a false responding label and
value one, but no mtr_avg_rtt_ms line. -/
theorem c3_silent_single_hop :
    (∀ hp : HopData, hp.loss_percent = 100 →
      (calculate_path_health_summary [hp]).map
        (fun s => (s.end_to_end_loss_percent, s.health_status)) = some (100, "CRITICAL"))
    ∧ ((metricsList stC3 [silentHop]).any (fun l => metricName l == "mtr_hop_count") = true)
    ∧ ((metricsList stC3 [silentHop]).any
        (fun l => metricName l == "mtr_silent_hops_count" && afterLastSpaceS l == "1") = true)
    ∧ ((metricsList stC3 [silentHop]).any
        (fun l => metricName l == "mtr_hop_info" && hasSubS "responding=\x22false\x22" l
            && afterLastSpaceS l == "1") = true)
    ∧ ((metricsList stC3 [silentHop]).all (fun l => !(metricName l == "mtr_avg_rtt_ms")) = true) := by
  refine ⟨?_, by decide, by decide, by decide, by decide⟩
  intro hp hl
  have hv : validHops [hp] = [] := by
    unfold validHops
    rw [List.filter_cons, List.filter_nil]
    rw [hl]
    norm_num
  have he2e : e2eHop [hp] = hp := by
    unfold e2eHop
    rw [hv]
    rfl
  have hstat : healthStatusStr [hp] = "CRITICAL" := by
    unfold healthStatusStr
    rw [he2e, hl]
    rw [if_pos (by norm_num)]
  simp only [calculate_path_health_summary, List.isEmpty_cons, Bool.false_eq_true,
    if_false, Option.map_some]
  rw [he2e, hl, hstat]
  rfl

theorem c3_witness :
    (calculate_path_health_summary [silentHop]).map
      (fun s => (s.end_to_end_loss_percent, s.health_status)) = some (100, "CRITICAL") :=
  c3_silent_single_hop.1 silentHop rfl
